import Mathlib

/-!
Shallow embedding of the assembler in src/toHex.py: a two-stage translator
from a line-oriented assembly language to 8-bit binary machine words and
their two-digit hexadecimal rendering.

Python strings are modelled as Lean String values; every Python string
operation used by the source (strip, split, startswith, upper, replace of a
single character by the empty string, containment of a character) is given
an explicit executable model below, named with a py prefix.  Python dicts
used by the source (the label table) are modelled as association lists with
overwrite-on-repeated-key insertion.  Python exceptions (ValueError raised
by the encoder and the codec, IndexError raised by list subscripting) are
modelled with Except over an explicit error type.
-/

/-- Characters treated as whitespace by Python str.strip and str.split:
space, tab, newline, carriage return, vertical tab, form feed. -/
def pyIsSpace (c : Char) : Bool :=
  c == ' ' || c == '\t' || c == '\n' || c == '\r' || c == '\x0b' || c == '\x0c'

/-- Model of Python str.strip(): remove leading and trailing whitespace. -/
def pyStrip (s : String) : String :=
  String.mk (((s.toList.dropWhile pyIsSpace).reverse.dropWhile pyIsSpace).reverse)

/-- Helper for pySplitChar: accumulate the current field until the next
separator. -/
def pySplitCharAux (sep : Char) : List Char → List Char → List String
  | [], acc => [String.mk acc.reverse]
  | c :: cs, acc =>
    if c == sep then String.mk acc.reverse :: pySplitCharAux sep cs []
    else pySplitCharAux sep cs (c :: acc)

/-- Model of Python s.split(sep) for a one-character separator sep: split at
every occurrence, keeping empty fields.  The result is always nonempty. -/
def pySplitChar (sep : Char) (s : String) : List String :=
  pySplitCharAux sep s.toList []

/-- Model of Python s.split(sep, 1)[1] for a one-character separator that is
known to occur in s: everything after the first occurrence. -/
def pyAfterChar (sep : Char) (s : String) : String :=
  String.mk ((s.toList.dropWhile (fun c => !(c == sep))).drop 1)

/-- Model of the Python membership test (c in s) for a character c. -/
def pyContainsChar (c : Char) (s : String) : Bool :=
  s.toList.contains c

/-- Model of Python s.startswith(pre). -/
def pyStartsWith (s pre : String) : Bool :=
  List.isPrefixOf pre.toList s.toList

/-- Model of Python s.upper() on the ASCII strings the assembler uses. -/
def pyUpper (s : String) : String :=
  String.mk (s.toList.map Char.toUpper)

/-- Model of Python s.replace(c, "") for a one-character pattern: delete
every occurrence of the character. -/
def pyRemoveChar (c : Char) (s : String) : String :=
  String.mk (s.toList.filter (fun d => !(d == c)))

/-- Model of Python s.split(maxsplit=1): skip leading whitespace, take the
first whitespace-delimited token, then the remainder with the separating
whitespace run removed.  The second component is the empty string when there
is no remainder, matching the source reading parts[1] if len(parts) > 1
else the empty string. -/
def pySplit1 (s : String) : String × String :=
  let cs := s.toList.dropWhile pyIsSpace
  (String.mk (cs.takeWhile (fun c => !(pyIsSpace c))),
   String.mk ((cs.dropWhile (fun c => !(pyIsSpace c))).dropWhile pyIsSpace))

/-- Model of the Python expression format(n, binary-zero-padded-to-4): the
binary digits of n, left-padded with zeros to a minimum width of 4.  Note
that, exactly as in Python, values of 16 or more produce MORE than four
digits; nothing is truncated. -/
def format04b (n : Nat) : String :=
  let s := (Nat.toDigits 2 n).asString
  if s.length < 4 then String.mk (List.replicate (4 - s.length) '0') ++ s else s

/-- Model of the Python expression format(n, uppercase-hex-zero-padded-to-2):
the hexadecimal digits of n in upper case, left-padded with zeros to a
minimum width of 2. -/
def format02X (n : Nat) : String :=
  let s := String.mk ((Nat.toDigits 16 n).map Char.toUpper)
  if s.length < 2 then String.mk (List.replicate (2 - s.length) '0') ++ s else s

/-- The static instruction definition table of src/toHex.py: mnemonic,
4-bit opcode, operand format tag. -/
def INSTRUCTION_SET : List (String × String × String) :=
  [("NOP", "0000", ""),
   ("HLT", "0001", ""),
   ("IN",  "0010", "reg_port"),
   ("OUT", "0011", "reg_port"),
   ("MOV", "0100", "reg_reg"),
   ("LDI", "0101", "reg_imm2"),
   ("ADD", "0110", "reg_reg"),
   ("SUB", "0111", "reg_reg"),
   ("DEC", "1000", "reg"),
   ("JMP", "1001", "address"),
   ("JZ",  "1010", "address")]

/-- The static register encoding table of src/toHex.py. -/
def REGISTERS : List (String × String) :=
  [("R0", "00"), ("R1", "01"), ("R2", "10"), ("R3", "11")]

/-- The static port encoding table of src/toHex.py. -/
def PORTS : List (String × String) :=
  [("LIGHT_PORT", "00"), ("MOTION_PORT", "01"),
   ("DUMMY_PORT_A", "10"), ("DUMMY_PORT_B", "11")]

/-- An instruction record produced by parse_assembly: address (position in
program order, 0-based), mnemonic (upper-cased), operand string (with spaces
and immediate markers removed). -/
structure Instr where
  address : Nat
  mnemonic : String
  operands : String
deriving DecidableEq, Repr

/-- The distinct failure kinds of the translator.  The first six model the
six distinct ValueError messages raised by translate_to_machine_code;
indexError models the Python IndexError raised by subscripting the result of
operands.split(comma) at position 1 when the operand string holds no comma;
malformedWord and invalidBinaryLiteral model the ValueError raised by
convert_binary_to_hex and a failing int(s, 2) conversion there. -/
inductive EncodeError where
  | unknownMnemonic (m : String)
  | unresolvedRegister (s : String)
  | unresolvedPort (s : String)
  | malformedImmediate (s : String)
  | undefinedLabel (s : String)
  | unsupportedFormat (f : String)
  | indexError
  | malformedWord (w : String)
  | invalidBinaryLiteral (w : String)
deriving DecidableEq, Repr

/-- Decidable equality of Except values, so that concrete runs of the
translator can be checked by evaluation. -/
instance {ε α : Type} [DecidableEq ε] [DecidableEq α] :
    DecidableEq (Except ε α) := fun x y =>
  match x, y with
  | Except.ok a, Except.ok b =>
    match decEq a b with
    | isTrue h => isTrue (congrArg Except.ok h)
    | isFalse h => isFalse (fun he => h (Except.ok.inj he))
  | Except.error a, Except.error b =>
    match decEq a b with
    | isTrue h => isTrue (congrArg Except.error h)
    | isFalse h => isFalse (fun he => h (Except.error.inj he))
  | Except.ok _, Except.error _ => isFalse (fun he => Except.noConfusion he)
  | Except.error _, Except.ok _ => isFalse (fun he => Except.noConfusion he)

/-- Insertion into a Python dict modelled as an association list: an existing
key is overwritten in place, a new key is appended. -/
def dictInsert (d : List (String × String)) (k v : String) :
    List (String × String) :=
  if d.any (fun p => p.1 == k) then
    d.map (fun p => if p.1 == k then (k, v) else p)
  else d ++ [(k, v)]

/-- Lookup in a Python dict modelled as an association list. -/
def dictGet? (d : List (String × String)) (k : String) : Option String :=
  (d.find? (fun p => p.1 == k)).map Prod.snd

/-- The skip test of the parser loop on an already stripped line: blank
lines, comment lines and constant-definition directive lines are skipped. -/
def skip_line (line1 : String) : Bool :=
  line1.isEmpty || pyStartsWith line1 ";" || pyStartsWith line1 ".EQU"

/-- The inline-comment cut of the parser loop: the text before the first
semicolon, stripped. -/
def cut_comment (line : String) : String :=
  pyStrip ((pySplitChar ';' line).headD "")

/-- The label name of a line holding a colon: the stripped text before the
first colon. -/
def label_text (line : String) : String :=
  pyStrip ((pySplitChar ':' line).headD "")

/-- The remainder of a line holding a colon: the stripped text after the
first colon. -/
def after_label (line : String) : String :=
  pyStrip (pyAfterChar ':' line)

/-- The instruction record the parser emits for a nonempty instruction text
at a given address: the first whitespace-delimited token upper-cased as the
mnemonic, and the remainder with spaces and immediate markers deleted as
the operand string. -/
def mk_record (addr : Nat) (line : String) : Instr :=
  Instr.mk addr (pyUpper (pySplit1 line).1)
    (pyRemoveChar '#' (pyRemoveChar ' ' (pySplit1 line).2))

/-- One iteration of the parser loop on one source line, mirroring the
Python loop body statement by statement: strip; skip blank, comment and
.EQU-directive lines; cut the inline comment; on a colon, insert the label
at the current address into the table immediately and continue with the
remainder; skip the line if nothing remains; otherwise emit the record.
Returns the emitted record, if any, and the updated label table; the
caller advances the address counter exactly when a record was emitted. -/
def parse_line (labels : List (String × String)) (addr : Nat) (l : String) :
    Option Instr × List (String × String) :=
  if skip_line (pyStrip l) then (none, labels)
  else
    if pyContainsChar ':' (cut_comment (pyStrip l)) then
      if (after_label (cut_comment (pyStrip l))).isEmpty then
        (none, dictInsert labels (label_text (cut_comment (pyStrip l)))
                 (format04b addr))
      else
        (some (mk_record addr (after_label (cut_comment (pyStrip l)))),
         dictInsert labels (label_text (cut_comment (pyStrip l)))
           (format04b addr))
    else
      if (cut_comment (pyStrip l)).isEmpty then (none, labels)
      else (some (mk_record addr (cut_comment (pyStrip l))), labels)

/-- The parser loop over the source lines, carrying the records emitted so
far, the label table so far, and the running address counter, which is
incremented exactly once per emitted record. -/
def parseLines : List String → List Instr → List (String × String) → Nat →
    List Instr × List (String × String)
  | [], parsed, labels, _ => (parsed, labels)
  | l :: rest, parsed, labels, addr =>
    match parse_line labels addr l with
    | (none, labels2) => parseLines rest parsed labels2 addr
    | (some ins, labels2) =>
      parseLines rest (parsed ++ [ins]) labels2 (addr + 1)

/-- Model of parse_assembly: strip the whole document, split it into lines,
and run the line loop with an empty record list, an empty label table and
address counter 0. -/
def parse_assembly (assembly_code : String) :
    List Instr × List (String × String) :=
  parseLines (pySplitChar '\n' (pyStrip assembly_code)) [] [] 0

/-- Model of the Python test re.fullmatch of two binary digits: the string
is exactly two characters, each 0 or 1. -/
def isTwoBitBinary (s : String) : Bool :=
  match s.toList with
  | [a, b] => (a == '0' || a == '1') && (b == '0' || b == '1')
  | _ => false

/-- The reg_port branch body of the encoder: split the operand string on
the comma (the source subscripts position 1 before any other check, so a
missing comma surfaces as indexError), resolve the left stripped token as a
register and the right stripped token as a port, concatenating the two
2-bit codes. -/
def encode_reg_port (operands : String) : Except EncodeError String :=
  match (pySplitChar ',' operands).get? 1 with
  | none => Except.error EncodeError.indexError
  | some p1 =>
    match REGISTERS.find?
        (fun p => p.1 == pyStrip ((pySplitChar ',' operands).headD "")) with
    | none => Except.error (EncodeError.unresolvedRegister
        (pyStrip ((pySplitChar ',' operands).headD "")))
    | some r =>
      match PORTS.find? (fun p => p.1 == pyStrip p1) with
      | none => Except.error (EncodeError.unresolvedPort (pyStrip p1))
      | some q => Except.ok (r.2 ++ q.2)

/-- The reg_reg branch body of the encoder: both stripped comma-separated
tokens resolve as registers (the source reports one combined unresolved
register error naming the whole operand string when either fails). -/
def encode_reg_reg (operands : String) : Except EncodeError String :=
  match (pySplitChar ',' operands).get? 1 with
  | none => Except.error EncodeError.indexError
  | some p1 =>
    match REGISTERS.find?
        (fun p => p.1 == pyStrip ((pySplitChar ',' operands).headD "")),
        REGISTERS.find? (fun p => p.1 == pyStrip p1) with
    | some d, some s => Except.ok (d.2 ++ s.2)
    | _, _ => Except.error (EncodeError.unresolvedRegister operands)

/-- The reg_imm2 branch body of the encoder: the left stripped token
resolves as a register; the right stripped token, after deletion of every
radix character, must be exactly two binary digits. -/
def encode_reg_imm2 (operands : String) : Except EncodeError String :=
  match (pySplitChar ',' operands).get? 1 with
  | none => Except.error EncodeError.indexError
  | some p1 =>
    match REGISTERS.find?
        (fun p => p.1 == pyStrip ((pySplitChar ',' operands).headD "")) with
    | none => Except.error (EncodeError.unresolvedRegister
        (pyStrip ((pySplitChar ',' operands).headD "")))
    | some r =>
      if isTwoBitBinary (pyRemoveChar 'b' (pyStrip p1)) then
        Except.ok (r.2 ++ pyRemoveChar 'b' (pyStrip p1))
      else Except.error (EncodeError.malformedImmediate (pyStrip p1))

/-- The reg branch body of the encoder: the whole stripped operand string
resolves as a register, padded with two zero bits. -/
def encode_reg (operands : String) : Except EncodeError String :=
  match REGISTERS.find? (fun p => p.1 == pyStrip operands) with
  | none => Except.error (EncodeError.unresolvedRegister (pyStrip operands))
  | some r => Except.ok (r.2 ++ "00")

/-- The address branch body of the encoder: the stripped operand string
must be a key of the label table; the stored string is used directly as the
operand field. -/
def encode_address_operand (labels : List (String × String))
    (operands : String) : Except EncodeError String :=
  match dictGet? labels (pyStrip operands) with
  | none => Except.error (EncodeError.undefinedLabel (pyStrip operands))
  | some v => Except.ok v

/-- The operand-field construction of translate_to_machine_code, one branch
per format tag, mirroring the if/elif chain of the source; each branch body
is the named function above. -/
def encode_operand (labels : List (String × String)) (fmt operands : String) :
    Except EncodeError String :=
  if fmt == "" then Except.ok "0000"
  else if fmt == "reg_port" then encode_reg_port operands
  else if fmt == "reg_reg" then encode_reg_reg operands
  else if fmt == "reg_imm2" then encode_reg_imm2 operands
  else if fmt == "reg" then encode_reg operands
  else if fmt == "address" then encode_address_operand labels operands
  else Except.error (EncodeError.unsupportedFormat fmt)

/-- The per-record body of the loop of translate_to_machine_code: look the
mnemonic up in the instruction table, build the operand field by format, and
concatenate opcode and operand field. -/
def encode_one (labels : List (String × String)) (ins : Instr) :
    Except EncodeError String :=
  match INSTRUCTION_SET.find? (fun p => p.1 == ins.mnemonic) with
  | none => Except.error (EncodeError.unknownMnemonic ins.mnemonic)
  | some info =>
    match encode_operand labels info.2.2 ins.operands with
    | Except.error e => Except.error e
    | Except.ok operandBinary => Except.ok (info.2.1 ++ operandBinary)

/-- Model of translate_to_machine_code: encode the records in order,
aborting at the first failure, exactly as the Python loop lets the first
raised ValueError or IndexError abort the whole translation. -/
def translate_to_machine_code (parsed : List Instr)
    (labels : List (String × String)) : Except EncodeError (List String) :=
  match parsed with
  | [] => Except.ok []
  | ins :: rest =>
    match encode_one labels ins with
    | Except.error e => Except.error e
    | Except.ok w =>
      match translate_to_machine_code rest labels with
      | Except.error e => Except.error e
      | Except.ok ws => Except.ok (w :: ws)

/-- Model of the Python conversion int(s, 2) for the plain digit strings
reaching it in this program: the value of a nonempty string of binary
digits, or failure on anything else. -/
def binToNat? (s : String) : Option Nat :=
  if s.isEmpty then none
  else
    s.toList.foldl
      (fun acc c =>
        match acc with
        | none => none
        | some n =>
          if c == '0' then some (2 * n)
          else if c == '1' then some (2 * n + 1)
          else none)
      (some 0)

/-- Model of convert_binary_to_hex: each word must be exactly 8 characters
long, is then read as a binary integer and rendered as two upper-case,
zero-padded hexadecimal digits; the first failure aborts the conversion. -/
def convert_binary_to_hex (binaryCodeList : List String) :
    Except EncodeError (List String) :=
  match binaryCodeList with
  | [] => Except.ok []
  | s :: rest =>
    if s.length ≠ 8 then Except.error (EncodeError.malformedWord s)
    else
      match binToNat? s with
      | none => Except.error (EncodeError.invalidBinaryLiteral s)
      | some n =>
        match convert_binary_to_hex rest with
        | Except.error e => Except.error e
        | Except.ok hs => Except.ok (format02X n :: hs)

/-- The composition run by the main block of src/toHex.py up to the encoded
binary words: parse, then translate against the completed label table. -/
def run_binary (src : String) : Except EncodeError (List String) :=
  let pr := parse_assembly src
  translate_to_machine_code pr.1 pr.2

/-- The full pipeline of the main block of src/toHex.py: parse, translate,
then render the binary words in hexadecimal. -/
def run_pipeline (src : String) : Except EncodeError (List String) :=
  match run_binary src with
  | Except.error e => Except.error e
  | Except.ok bin => convert_binary_to_hex bin

/-- The advisory check of the main block (the final length test of the hex
word list against the 4-bit address space): true exactly when the program
exceeds 16 words.  It is evaluated on the completed output and changes
nothing. -/
def exceeds_limit (hexMachineCode : List String) : Bool :=
  decide (hexMachineCode.length > 16)

/-- Modelled from the spec: the hex-decode direction of the round-trip law
of section 8, which has no counterpart under src/ (the source only encodes).
It is the standard parse of a nonempty string of hexadecimal digits, upper
or lower case, as an unsigned integer, i.e. Python int(s, 16) on the plain
digit strings the law feeds it. -/
def int_of_hex (s : String) : Option Nat :=
  if s.isEmpty then none
  else
    s.toList.foldl
      (fun acc c =>
        match acc with
        | none => none
        | some n =>
          if c.isDigit then some (16 * n + (c.toNat - 48))
          else if 'A' ≤ c && c ≤ 'F' then some (16 * n + (c.toNat - 55))
          else if 'a' ≤ c && c ≤ 'f' then some (16 * n + (c.toNat - 87))
          else none)
      (some 0)

/-- The six reportable failure kinds that the specification lists for the
encoder: true exactly on unresolved register, unresolved port, malformed
immediate, undefined label, unknown mnemonic and unsupported format. -/
def six_kind : EncodeError → Bool
  | EncodeError.unknownMnemonic _ => true
  | EncodeError.unresolvedRegister _ => true
  | EncodeError.unresolvedPort _ => true
  | EncodeError.malformedImmediate _ => true
  | EncodeError.undefinedLabel _ => true
  | EncodeError.unsupportedFormat _ => true
  | _ => false

/-- The immediate preprocessing exactly as the specification words it, for
comparison with the source behaviour: strip one optional TRAILING radix
marker before the two-binary-digit test.  The source instead deletes every
occurrence of the marker, wherever it stands (pyRemoveChar). -/
def spec_strip_trailing_radix (s : String) : String :=
  match s.toList.reverse with
  | 'b' :: rest => String.mk rest.reverse
  | _ => s

/-- A straight-line program of n no-operation instructions, one per line. -/
def progN (n : Nat) : String :=
  String.intercalate "\n" (List.replicate n "NOP")

/-- A 17-instruction program whose last line defines label L at address 16
and jumps to it: 16 no-operation lines followed by the line L colon JMP L. -/
def prog_label16 : String :=
  progN 16 ++ "\nL: JMP L"

/-! ## Theorems about the claims -/

/-- C7: running the full pipeline on the single source line LDI R0,#00b
with no labels defined produces exactly one word, opcode 0101 concatenated
with operand 0000, i.e. the binary word 01010000, rendered in hexadecimal
as 50. -/
theorem c7_end_to_end_ldi :
    (parse_assembly "LDI R0,#00b").2 = [] ∧
    run_binary "LDI R0,#00b" = Except.ok ["0101" ++ "0000"] ∧
    run_binary "LDI R0,#00b" = Except.ok ["01010000"] ∧
    run_pipeline "LDI R0,#00b" = Except.ok ["50"] := by
  refine ⟨by decide, by decide, by decide, by decide⟩

/-- C5: the address-space advisory is computed on the completed hexadecimal
output and is non-fatal.  A program of exactly 16 instructions encodes to
its full 16-word sequence with the advisory off; a program of 17
instructions still encodes to its full untruncated 17-word sequence, with
the advisory on. -/
theorem c5_advisory_boundary :
    run_pipeline (progN 16) = Except.ok (List.replicate 16 "00") ∧
    exceeds_limit (List.replicate 16 "00") = false ∧
    run_pipeline (progN 17) = Except.ok (List.replicate 17 "00") ∧
    exceeds_limit (List.replicate 17 "00") = true ∧
    (List.replicate 17 "00").length = 17 := by
  refine ⟨by decide, by decide, by decide, by decide, by decide⟩

set_option maxRecDepth 4096 in
/-- C6: for every integer n between 0 and 255, rendering n as two
upper-case zero-padded hexadecimal digits and parsing the result back as an
integer returns n. -/
theorem c6_hex_round_trip :
    ∀ n : Nat, n ≤ 255 → int_of_hex (format02X n) = some n := by decide

/-- Witness for C6 at the concrete input 171. -/
theorem c6_hex_round_trip_witness :
    (171 : Nat) ≤ 255 ∧ int_of_hex (format02X 171) = some 171 :=
  ⟨by decide, c6_hex_round_trip 171 (by decide)⟩

/-- C3 is wrong on the code (code bug): on the 17-line program of 16
no-operation lines followed by the line L colon JMP L, the parser stores
label L as the FIVE-bit string 10000 (the Python format call pads to a
minimum of four binary digits but never truncates), so the encoder emits
the nine-bit word 100110000 for the jump, violating the 8-bit binary-word
invariant that the code's own codec then enforces by rejecting the word. -/
theorem c3_nine_bit_word_on_label_at_16 :
    (parse_assembly prog_label16).2 = [("L", "10000")] ∧
    run_binary prog_label16 =
      Except.ok (List.replicate 16 "00000000" ++ ["100110000"]) ∧
    ("100110000" : String).length = 9 ∧
    run_pipeline prog_label16 =
      Except.error (EncodeError.malformedWord "100110000") := by
  refine ⟨by decide, by decide, by decide, by decide⟩

/-- C9: both mnemonics of the NONE operand format encode with operand field
0000 whatever the record's operand string and whatever the label table;
extra operand text after NOP or HLT is silently ignored. -/
theorem c9_none_format_ignores_operands :
    ∀ (labels : List (String × String)) (a : Nat) (ops : String),
      encode_one labels { address := a, mnemonic := "NOP", operands := ops } =
        Except.ok "00000000" ∧
      encode_one labels { address := a, mnemonic := "HLT", operands := ops } =
        Except.ok "00010000" := by
  intro labels a ops
  exact ⟨rfl, rfl⟩

/-- C10: mnemonics are case-insensitive (the parser upper-cases them), but
register names, port names and label references are case-sensitive: each
lower-case variant fails with the corresponding unresolved error while the
upper-case spelling succeeds. -/
theorem c10_operand_case_sensitivity :
    (parse_assembly "dec r0").1 = [{ address := 0, mnemonic := "DEC", operands := "r0" }] ∧
    encode_one [] { address := 0, mnemonic := "DEC", operands := "r0" } =
      Except.error (EncodeError.unresolvedRegister "r0") ∧
    encode_one [] { address := 0, mnemonic := "DEC", operands := "R0" } =
      Except.ok "10000000" ∧
    encode_one [] { address := 0, mnemonic := "OUT", operands := "R0,light_port" } =
      Except.error (EncodeError.unresolvedPort "light_port") ∧
    encode_one [] { address := 0, mnemonic := "OUT", operands := "R0,LIGHT_PORT" } =
      Except.ok "00110000" ∧
    encode_one [("START", "0000")] { address := 0, mnemonic := "JMP", operands := "start" } =
      Except.error (EncodeError.undefinedLabel "start") ∧
    encode_one [("START", "0000")] { address := 0, mnemonic := "JMP", operands := "START" } =
      Except.ok "10010000" := by
  refine ⟨by decide, by decide, by decide, by decide, by decide, by decide, by decide⟩

/-- C2 as stated is false: a comma-separated-format instruction whose
operand string lacks the comma makes the encoder subscript the split result
out of range, a failure distinct from all six reportable kinds.  The
concrete input is the record MOV with operand string R0 under the empty
label table. -/
theorem c2_counterexample :
    ¬ (∀ (labels : List (String × String)) (ins : Instr),
        (∃ w, encode_one labels ins = Except.ok w ∧ w.length = 8) ∨
        (∃ e, encode_one labels ins = Except.error e ∧ six_kind e = true)) := by
  intro h
  have hx : encode_one [] { address := 0, mnemonic := "MOV", operands := "R0" } =
      Except.error EncodeError.indexError := by decide
  rcases h [] { address := 0, mnemonic := "MOV", operands := "R0" } with
    ⟨w, hw, _⟩ | ⟨e, he, hk⟩
  · rw [hx] at hw
    exact Except.noConfusion hw
  · rw [hx] at he
    have he2 := Except.error.inj he
    rw [← he2] at hk
    exact absurd hk (by decide)

/-- C4 as stated is false: the claim predicts that the immediate token b01,
whose radix marker is not in trailing position, fails, but the source
deletes EVERY occurrence of the marker before the two-digit test, so
LDI R0,b01 encodes successfully (to 01010001). -/
theorem c4_counterexample :
    ¬ ((∃ msg, encode_one [] { address := 0, mnemonic := "LDI", operands := "R0,b01" } =
          Except.error (EncodeError.malformedImmediate msg)) ↔
        isTwoBitBinary (spec_strip_trailing_radix "b01") = false) := by
  intro h
  rcases h.mpr (by decide) with ⟨msg, hm⟩
  have hx : encode_one [] { address := 0, mnemonic := "LDI", operands := "R0,b01" } =
      Except.ok "01010001" := by decide
  rw [hx] at hm
  exact Except.noConfusion hm


/-- An emitted record always carries the address counter the parser passed
to parse_line. -/
lemma parse_line_addr (labels : List (String × String)) (addr : Nat)
    (l : String) (ins : Instr) (labels2 : List (String × String))
    (h : parse_line labels addr l = (some ins, labels2)) :
    ins.address = addr := by
  unfold parse_line at h
  split at h
  · exact absurd (congrArg Prod.fst h) (by simp)
  · split at h
    · split at h
      · exact absurd (congrArg Prod.fst h) (by simp)
      · have := congrArg Prod.fst h
        simp only [mk_record] at this
        rw [← Option.some.inj this]
    · split at h
      · exact absurd (congrArg Prod.fst h) (by simp)
      · have := congrArg Prod.fst h
        simp only [mk_record] at this
        rw [← Option.some.inj this]

/-- Appending one record whose address equals the current length preserves
the addresses-equal-indices invariant. -/
lemma append_record_addr (acc : List Instr) (x : Instr)
    (hacc : ∀ (j : Nat) (r : Instr), acc[j]? = some r → r.address = j)
    (hx : x.address = acc.length) :
    ∀ (j : Nat) (r : Instr), (acc ++ [x])[j]? = some r → r.address = j := by
  intro j r h
  rcases Nat.lt_trichotomy j acc.length with hj | hj | hj
  · rw [List.getElem?_append_left hj] at h
    exact hacc j r h
  · subst hj
    rw [List.getElem?_concat_length] at h
    cases h
    exact hx
  · rw [List.getElem?_append_right (Nat.le_of_lt hj)] at h
    have hlen : ([x] : List Instr).length ≤ j - acc.length := by
      simp only [List.length_singleton]
      omega
    rw [List.getElem?_eq_none hlen] at h
    exact Option.noConfusion h

/-- Invariant of the parser loop: starting from an accumulator whose j-th
record carries address j and an address counter equal to the accumulator
length, every record of the final record list carries its own index as its
address. -/
lemma parseLines_addr_inv (ls : List String) :
    ∀ (acc : List Instr) (labels : List (String × String)),
      (∀ (j : Nat) (r : Instr), acc[j]? = some r → r.address = j) →
      ∀ (j : Nat) (r : Instr),
        (parseLines ls acc labels acc.length).1[j]? = some r → r.address = j := by
  induction ls with
  | nil =>
    intro acc labels hacc
    exact hacc
  | cons l rest ih =>
    intro acc labels hacc j r
    rw [parseLines]
    cases hpl : parse_line labels acc.length l with
    | mk o labels2 =>
      cases o with
      | none => exact ih acc labels2 hacc j r
      | some ins =>
        have haddr : ins.address = acc.length :=
          parse_line_addr labels acc.length l ins labels2 hpl
        have hstep := ih (acc ++ [ins]) labels2
          (append_record_addr acc ins hacc haddr) j r
        rw [List.length_append, List.length_singleton] at hstep
        exact hstep

/-- C8: the line parser is a total function of the source text (the
embedding returns a record list and a table for every input string, never
an error), and the i-th emitted record carries address i: the counter
starts at 0 and is advanced exactly once per emitted record, never for a
skipped line. -/
theorem c8_parser_addresses (src : String) (i : Nat) (r : Instr)
    (h : (parse_assembly src).1[i]? = some r) : r.address = i := by
  have hbase : ∀ (j : Nat) (q : Instr),
      ([] : List Instr)[j]? = some q → q.address = j := by
    intro j q hq
    simp at hq
  exact parseLines_addr_inv (pySplitChar '\n' (pyStrip src)) [] [] hbase i r h

/-- Witness for C8 on the two-line source NOP then X colon HLT, whose
second emitted record (index 1, an instruction following a label on the
same line) carries address 1. -/
theorem c8_parser_addresses_witness :
    (parse_assembly "NOP\nX: HLT").1[1]? =
      some { address := 1, mnemonic := "HLT", operands := "" } ∧
    (Instr.mk 1 "HLT" "").address = 1 :=
  ⟨by decide, c8_parser_addresses "NOP\nX: HLT" 1 (Instr.mk 1 "HLT" "") (by decide)⟩

/-- Dropping a prefix twice drops it once. -/
lemma dropWhile_dropWhile_self {α : Type} (p : α → Bool) (l : List α) :
    (l.dropWhile p).dropWhile p = l.dropWhile p := by
  induction l with
  | nil => rfl
  | cons a t ih =>
    by_cases h : p a
    · rw [List.dropWhile_cons_of_pos h]
      exact ih
    · rw [List.dropWhile_cons_of_neg h, List.dropWhile_cons_of_neg h]

/-- The head of a dropWhile result never satisfies the predicate. -/
lemma head?_dropWhile_false {α : Type} (p : α → Bool) (l : List α) {c : α}
    (h : (l.dropWhile p).head? = some c) : p c = false := by
  have hm := List.head?_dropWhile_not p l
  rw [h] at hm
  exact hm

/-- A list whose head fails the predicate is unchanged by dropWhile. -/
lemma dropWhile_eq_self_of_head? {α : Type} (p : α → Bool) (l : List α)
    (h : ∀ c, l.head? = some c → p c = false) : l.dropWhile p = l := by
  cases l with
  | nil => rfl
  | cons a t =>
    have := h a rfl
    exact List.dropWhile_cons_of_neg (by simp [this])

/-- When dropWhile leaves something, it leaves the last element in place. -/
lemma getLast?_dropWhile {α : Type} (p : α → Bool) (l : List α)
    (h : l.dropWhile p ≠ []) : (l.dropWhile p).getLast? = l.getLast? := by
  induction l with
  | nil => exact absurd rfl h
  | cons a t ih =>
    by_cases hp : p a
    · rw [List.dropWhile_cons_of_pos hp] at h ⊢
      have ht : t ≠ [] := by
        intro he
        rw [he] at h
        exact h rfl
      rw [ih h]
      cases t with
      | nil => exact absurd rfl ht
      | cons b u => rw [List.getLast?_cons_cons]
    · rw [List.dropWhile_cons_of_neg hp]

/-- Core of the idempotence of two-sided trimming: trimming a list already
trimmed on the left (head fails p) and then on the right changes nothing. -/
lemma trim_idem {α : Type} (p : α → Bool) (A B : List α)
    (hA : ∀ c, A.head? = some c → p c = false)
    (hB : B = A.reverse.dropWhile p) :
    ((B.reverse.dropWhile p).reverse.dropWhile p).reverse = B.reverse := by
  have h1 : B.reverse.dropWhile p = B.reverse := by
    apply dropWhile_eq_self_of_head?
    intro c hc
    rw [List.head?_reverse] at hc
    have hBne : B ≠ [] := by
      intro he
      rw [he] at hc
      exact Option.noConfusion hc
    rw [hB] at hc hBne
    rw [getLast?_dropWhile p A.reverse hBne, List.getLast?_reverse] at hc
    exact hA c hc
  rw [h1, List.reverse_reverse, hB, dropWhile_dropWhile_self]

/-- Python strip is idempotent. -/
lemma pyStrip_idem (s : String) : pyStrip (pyStrip s) = pyStrip s := by
  unfold pyStrip
  exact congrArg String.mk
    (trim_idem pyIsSpace (s.toList.dropWhile pyIsSpace)
      ((s.toList.dropWhile pyIsSpace).reverse.dropWhile pyIsSpace)
      (fun c hc => head?_dropWhile_false pyIsSpace s.toList hc) rfl)

/-- Inserting a stripped key into a table of stripped keys keeps every key
stripped. -/
lemma dictInsert_keys (d : List (String × String)) (k v : String)
    (hd : ∀ p ∈ d, pyStrip p.1 = p.1) (hk : pyStrip k = k) :
    ∀ p ∈ dictInsert d k v, pyStrip p.1 = p.1 := by
  intro q hq
  unfold dictInsert at hq
  split at hq
  · rcases List.mem_map.mp hq with ⟨w, hw, hwe⟩
    by_cases h2 : (w.1 == k) = true
    · rw [if_pos h2] at hwe
      rw [← hwe]
      exact hk
    · rw [if_neg h2] at hwe
      rw [← hwe]
      exact hd w hw
  · rcases List.mem_append.mp hq with h1 | h1
    · exact hd q h1
    · have hqe : q = (k, v) := List.mem_singleton.mp h1
      rw [hqe]
      exact hk

/-- Every key parse_line inserts is a stripped string (it is the strip of
the text before the first colon), so a table of stripped keys stays one. -/
lemma parse_line_keys (labels : List (String × String)) (addr : Nat)
    (l : String) (hd : ∀ p ∈ labels, pyStrip p.1 = p.1) :
    ∀ p ∈ (parse_line labels addr l).2, pyStrip p.1 = p.1 := by
  unfold parse_line
  split
  · exact hd
  · split
    · split
      · exact dictInsert_keys labels _ _ hd (pyStrip_idem _)
      · exact dictInsert_keys labels _ _ hd (pyStrip_idem _)
    · split
      · exact hd
      · exact hd

/-- Every key of the table built by the parser loop is a stripped string,
provided every key of the starting table is. -/
lemma parseLines_keys (ls : List String) :
    ∀ (acc : List Instr) (labels : List (String × String)) (addr : Nat),
      (∀ p ∈ labels, pyStrip p.1 = p.1) →
      ∀ p ∈ (parseLines ls acc labels addr).2, pyStrip p.1 = p.1 := by
  induction ls with
  | nil =>
    intro acc labels addr hd
    exact hd
  | cons l rest ih =>
    intro acc labels addr hd
    rw [parseLines]
    cases hpl : parse_line labels addr l with
    | mk o labels2 =>
      have h2 : ∀ p ∈ labels2, pyStrip p.1 = p.1 := by
        have hx := parse_line_keys labels addr l hd
        rw [hpl] at hx
        exact hx
      cases o with
      | none => exact ih acc labels2 addr h2
      | some ins => exact ih (acc ++ [ins]) labels2 (addr + 1) h2

/-- Every key of the label table returned by parse_assembly is a stripped
string. -/
lemma parse_assembly_keys (src : String) :
    ∀ p ∈ (parse_assembly src).2, pyStrip p.1 = p.1 := by
  have hbase : ∀ p ∈ ([] : List (String × String)), pyStrip p.1 = p.1 := by
    intro p hp
    exact absurd hp (List.not_mem_nil p)
  exact parseLines_keys _ [] [] 0 hbase

/-- Encoding a jump whose stripped operand resolves in the label table
yields the opcode followed by the stored address string. -/
lemma encode_address (labels : List (String × String)) (a : Nat)
    (mn ops v : String) (hmn : mn = "JMP" ∨ mn = "JZ")
    (hv : dictGet? labels (pyStrip ops) = some v) :
    encode_one labels (Instr.mk a mn ops) =
      Except.ok ((if mn = "JMP" then "1001" else "1010") ++ v) := by
  have ho : encode_operand labels "address" ops = Except.ok v := by
    unfold encode_operand encode_address_operand
    rw [hv]
    rfl
  rcases hmn with rfl | rfl
  · rw [if_pos rfl]
    unfold encode_one
    have hf : INSTRUCTION_SET.find? (fun p => p.1 == (Instr.mk a "JMP" ops).mnemonic)
        = some ("JMP", "1001", "address") := rfl
    rw [hf]
    dsimp only
    rw [ho]
  · rw [if_neg (by decide)]
    unfold encode_one
    have hf : INSTRUCTION_SET.find? (fun p => p.1 == (Instr.mk a "JZ" ops).mnemonic)
        = some ("JZ", "1010", "address") := rfl
    rw [hf]
    dsimp only
    rw [ho]

/-- C1: for every label L stored in the completed symbol table with the
4-bit rendering of an address A below 16, every ADDRESS-format instruction
of the parsed program (JMP or JZ) whose operand string is L — before or
after the defining line, since encoding runs against the completed table —
encodes to its opcode followed by the 4-bit binary representation of A. -/
theorem c1_label_resolution (src L : String) (A : Nat) (_hA : A < 16)
    (ins : Instr) (hins : ins ∈ (parse_assembly src).1)
    (hmn : ins.mnemonic = "JMP" ∨ ins.mnemonic = "JZ")
    (hop : ins.operands = L)
    (hkey : dictGet? (parse_assembly src).2 L = some (format04b A)) :
    encode_one (parse_assembly src).2 ins =
      Except.ok ((if ins.mnemonic = "JMP" then "1001" else "1010") ++ format04b A) := by
  have hL : pyStrip L = L := by
    unfold dictGet? at hkey
    rcases Option.map_eq_some'.mp hkey with ⟨q, hq, hqv⟩
    have hmem := List.mem_of_find?_eq_some hq
    have hbq := List.find?_some hq
    have hqk : q.1 = L := eq_of_beq hbq
    rw [← hqk]
    exact parse_assembly_keys src q hmem
  obtain ⟨a, mn, ops⟩ := ins
  have hop2 : ops = L := hop
  subst hop2
  exact encode_address (parse_assembly src).2 a mn ops (format04b A) hmn
    (by rw [hL]; exact hkey)

/-- Witness for C1 on the three-line source JMP END, NOP, END colon HLT: a
forward reference from address 0 to the label END defined at address 2. -/
theorem c1_label_resolution_witness :
    (Instr.mk 0 "JMP" "END") ∈ (parse_assembly "JMP END\nNOP\nEND: HLT").1 ∧
    encode_one (parse_assembly "JMP END\nNOP\nEND: HLT").2 (Instr.mk 0 "JMP" "END") =
      Except.ok ((if ("JMP" : String) = "JMP" then "1001" else "1010") ++ format04b 2) :=
  ⟨by decide,
   c1_label_resolution "JMP END\nNOP\nEND: HLT" "END" 2 (by decide)
     (Instr.mk 0 "JMP" "END") (by decide) (Or.inl rfl) rfl (by decide)⟩

/-- Every register code of the static table is a 2-bit string. -/
lemma REGISTERS_val_len : ∀ p ∈ REGISTERS, (Prod.snd p).length = 2 := by decide

/-- Every port code of the static table is a 2-bit string. -/
lemma PORTS_val_len : ∀ p ∈ PORTS, (Prod.snd p).length = 2 := by decide

/-- Every entry of the static instruction table has a 4-bit opcode and one
of the six format tags. -/
lemma INSTRUCTION_SET_wf : ∀ p ∈ INSTRUCTION_SET,
    p.2.1.length = 4 ∧
    (p.2.2 = "" ∨ p.2.2 = "reg_port" ∨ p.2.2 = "reg_reg" ∨
     p.2.2 = "reg_imm2" ∨ p.2.2 = "reg" ∨ p.2.2 = "address") := by decide

/-- A string passing the two-binary-digit test has length 2. -/
lemma isTwoBitBinary_len {s : String} (h : isTwoBitBinary s = true) :
    s.length = 2 := by
  obtain ⟨data⟩ := s
  cases data with
  | nil => exact absurd h (by decide)
  | cons a t =>
    cases t with
    | nil => exact absurd h (by simp [isTwoBitBinary])
    | cons b u =>
      cases u with
      | nil => rfl
      | cons d w => exact absurd h (by simp [isTwoBitBinary])

/-- The reg_port branch returns a 4-bit field or one of the reportable
kinds, or the index error on a missing comma. -/
lemma encode_reg_port_total (ops : String) :
    (∃ ob, encode_reg_port ops = Except.ok ob ∧ ob.length = 4) ∨
    (∃ e, encode_reg_port ops = Except.error e ∧
      (six_kind e = true ∨ e = EncodeError.indexError)) := by
  unfold encode_reg_port
  cases hg : (pySplitChar ',' ops).get? 1 with
  | none => exact Or.inr ⟨EncodeError.indexError, rfl, Or.inr rfl⟩
  | some p1 =>
    dsimp only
    cases hr : REGISTERS.find?
        (fun p => p.1 == pyStrip ((pySplitChar ',' ops).headD "")) with
    | none =>
      exact Or.inr ⟨EncodeError.unresolvedRegister
        (pyStrip ((pySplitChar ',' ops).headD "")), rfl, Or.inl rfl⟩
    | some r =>
      dsimp only
      cases hp : PORTS.find? (fun p => p.1 == pyStrip p1) with
      | none => exact Or.inr ⟨EncodeError.unresolvedPort (pyStrip p1), rfl, Or.inl rfl⟩
      | some q =>
        refine Or.inl ⟨r.2 ++ q.2, rfl, ?_⟩
        rw [String.length_append, REGISTERS_val_len r (List.mem_of_find?_eq_some hr),
            PORTS_val_len q (List.mem_of_find?_eq_some hp)]

/-- The reg_reg branch returns a 4-bit field or one of the reportable
kinds, or the index error on a missing comma. -/
lemma encode_reg_reg_total (ops : String) :
    (∃ ob, encode_reg_reg ops = Except.ok ob ∧ ob.length = 4) ∨
    (∃ e, encode_reg_reg ops = Except.error e ∧
      (six_kind e = true ∨ e = EncodeError.indexError)) := by
  unfold encode_reg_reg
  cases hg : (pySplitChar ',' ops).get? 1 with
  | none => exact Or.inr ⟨EncodeError.indexError, rfl, Or.inr rfl⟩
  | some p1 =>
    dsimp only
    cases hd : REGISTERS.find?
        (fun p => p.1 == pyStrip ((pySplitChar ',' ops).headD "")) with
    | none => exact Or.inr ⟨EncodeError.unresolvedRegister ops, rfl, Or.inl rfl⟩
    | some d =>
      cases hs : REGISTERS.find? (fun p => p.1 == pyStrip p1) with
      | none => exact Or.inr ⟨EncodeError.unresolvedRegister ops, rfl, Or.inl rfl⟩
      | some s =>
        refine Or.inl ⟨d.2 ++ s.2, rfl, ?_⟩
        rw [String.length_append, REGISTERS_val_len d (List.mem_of_find?_eq_some hd),
            REGISTERS_val_len s (List.mem_of_find?_eq_some hs)]

/-- The reg_imm2 branch returns a 4-bit field or one of the reportable
kinds, or the index error on a missing comma. -/
lemma encode_reg_imm2_total (ops : String) :
    (∃ ob, encode_reg_imm2 ops = Except.ok ob ∧ ob.length = 4) ∨
    (∃ e, encode_reg_imm2 ops = Except.error e ∧
      (six_kind e = true ∨ e = EncodeError.indexError)) := by
  unfold encode_reg_imm2
  cases hg : (pySplitChar ',' ops).get? 1 with
  | none => exact Or.inr ⟨EncodeError.indexError, rfl, Or.inr rfl⟩
  | some p1 =>
    dsimp only
    cases hr : REGISTERS.find?
        (fun p => p.1 == pyStrip ((pySplitChar ',' ops).headD "")) with
    | none =>
      exact Or.inr ⟨EncodeError.unresolvedRegister
        (pyStrip ((pySplitChar ',' ops).headD "")), rfl, Or.inl rfl⟩
    | some r =>
      dsimp only
      by_cases htb : isTwoBitBinary (pyRemoveChar 'b' (pyStrip p1)) = true
      · simp only [if_pos htb]
        refine Or.inl ⟨_, rfl, ?_⟩
        rw [String.length_append, REGISTERS_val_len r (List.mem_of_find?_eq_some hr),
            isTwoBitBinary_len htb]
      · simp only [if_neg htb]
        exact Or.inr ⟨EncodeError.malformedImmediate (pyStrip p1), rfl, Or.inl rfl⟩

/-- The reg branch returns a 4-bit field or an unresolved register error. -/
lemma encode_reg_total (ops : String) :
    (∃ ob, encode_reg ops = Except.ok ob ∧ ob.length = 4) ∨
    (∃ e, encode_reg ops = Except.error e ∧
      (six_kind e = true ∨ e = EncodeError.indexError)) := by
  unfold encode_reg
  cases hr : REGISTERS.find? (fun p => p.1 == pyStrip ops) with
  | none => exact Or.inr ⟨EncodeError.unresolvedRegister (pyStrip ops), rfl, Or.inl rfl⟩
  | some r =>
    dsimp only
    refine Or.inl ⟨r.2 ++ "00", rfl, ?_⟩
    rw [String.length_append, REGISTERS_val_len r (List.mem_of_find?_eq_some hr)]
    rfl

/-- The address branch returns the stored label string (4-bit when every
stored table value is) or an undefined label error. -/
lemma encode_address_operand_total (labels : List (String × String))
    (ops : String) (hlab : ∀ p ∈ labels, (Prod.snd p).length = 4) :
    (∃ ob, encode_address_operand labels ops = Except.ok ob ∧ ob.length = 4) ∨
    (∃ e, encode_address_operand labels ops = Except.error e ∧
      (six_kind e = true ∨ e = EncodeError.indexError)) := by
  unfold encode_address_operand
  cases hv : dictGet? labels (pyStrip ops) with
  | none => exact Or.inr ⟨EncodeError.undefinedLabel (pyStrip ops), rfl, Or.inl rfl⟩
  | some v =>
    dsimp only
    refine Or.inl ⟨v, rfl, ?_⟩
    unfold dictGet? at hv
    rcases Option.map_eq_some'.mp hv with ⟨q, hq, hqv⟩
    rw [← hqv]
    exact hlab q (List.mem_of_find?_eq_some hq)

/-- The operand-field construction, at any of the six format tags of the
static table, returns a 4-bit field or one of the reportable kinds or the
index error. -/
lemma encode_operand_total (labels : List (String × String))
    (fmt ops : String) (hlab : ∀ p ∈ labels, (Prod.snd p).length = 4)
    (hfmt : fmt = "" ∨ fmt = "reg_port" ∨ fmt = "reg_reg" ∨
            fmt = "reg_imm2" ∨ fmt = "reg" ∨ fmt = "address") :
    (∃ ob, encode_operand labels fmt ops = Except.ok ob ∧ ob.length = 4) ∨
    (∃ e, encode_operand labels fmt ops = Except.error e ∧
      (six_kind e = true ∨ e = EncodeError.indexError)) := by
  rcases hfmt with rfl | rfl | rfl | rfl | rfl | rfl
  · exact Or.inl ⟨"0000", rfl, rfl⟩
  · exact encode_reg_port_total ops
  · exact encode_reg_reg_total ops
  · exact encode_reg_imm2_total ops
  · exact encode_reg_total ops
  · exact encode_address_operand_total labels ops hlab

/-- C2 amended: for every instruction record and every symbol table whose
stored values are 4-bit strings (the tables the parser builds for programs
whose labels sit below address 16), the encoder returns an 8-bit word or
fails with one of the six reportable kinds or with the index error raised
when the operand string of a comma-separated format lacks the comma. -/
theorem c2_encoder_outcomes (labels : List (String × String)) (ins : Instr)
    (hlab : ∀ p ∈ labels, (Prod.snd p).length = 4) :
    (∃ w, encode_one labels ins = Except.ok w ∧ w.length = 8) ∨
    (∃ e, encode_one labels ins = Except.error e ∧
      (six_kind e = true ∨ e = EncodeError.indexError)) := by
  unfold encode_one
  cases hf : INSTRUCTION_SET.find? (fun p => p.1 == ins.mnemonic) with
  | none => exact Or.inr ⟨EncodeError.unknownMnemonic ins.mnemonic, rfl, Or.inl rfl⟩
  | some info =>
    dsimp only
    have hwf := INSTRUCTION_SET_wf info (List.mem_of_find?_eq_some hf)
    rcases encode_operand_total labels info.2.2 ins.operands hlab hwf.2 with
      ⟨ob, hob, hlen⟩ | ⟨e, he, hk⟩
    · rw [hob]
      refine Or.inl ⟨info.2.1 ++ ob, rfl, ?_⟩
      rw [String.length_append, hwf.1, hlen]
    · rw [he]
      exact Or.inr ⟨e, rfl, hk⟩

/-- Witness for the amended C2 at the record NOP with empty operands and a
one-entry table with a 4-bit value. -/
theorem c2_encoder_outcomes_witness :
    (∀ p ∈ [("A", "0000")], (Prod.snd p).length = 4) ∧
    ((∃ w, encode_one [("A", "0000")] (Instr.mk 0 "NOP" "") = Except.ok w ∧
        w.length = 8) ∨
     (∃ e, encode_one [("A", "0000")] (Instr.mk 0 "NOP" "") = Except.error e ∧
        (six_kind e = true ∨ e = EncodeError.indexError))) :=
  ⟨by decide, c2_encoder_outcomes [("A", "0000")] (Instr.mk 0 "NOP" "") (by decide)⟩

/-- On a comma-holding operand string whose left token resolves as a
register, the reg_imm2 branch fails with a malformed immediate exactly when
the right stripped token, after deletion of every radix character, is not
two binary digits. -/
lemma encode_reg_imm2_malformed_iff (ops immTok : String)
    (h1 : (pySplitChar ',' ops).get? 1 = some immTok)
    (h2 : (REGISTERS.find?
        (fun p => p.1 == pyStrip ((pySplitChar ',' ops).headD ""))).isSome = true) :
    (∃ msg, encode_reg_imm2 ops =
        Except.error (EncodeError.malformedImmediate msg)) ↔
      isTwoBitBinary (pyRemoveChar 'b' (pyStrip immTok)) = false := by
  unfold encode_reg_imm2
  rw [h1]
  dsimp only
  rcases Option.isSome_iff_exists.mp h2 with ⟨r, hr⟩
  rw [hr]
  dsimp only
  by_cases htb : isTwoBitBinary (pyRemoveChar 'b' (pyStrip immTok)) = true
  · simp only [if_pos htb]
    constructor
    · rintro ⟨msg, hm⟩
      exact absurd hm (by simp)
    · intro hfalse
      rw [htb] at hfalse
      exact absurd hfalse (by decide)
  · simp only [if_neg htb]
    constructor
    · intro _
      exact Bool.eq_false_iff.mpr htb
    · intro _
      exact ⟨pyStrip immTok, rfl⟩

/-- C4 amended: for a load-immediate instruction whose operand string holds
a comma and whose left stripped token resolves as a register, encoding
fails with MalformedImmediate if and only if the immediate token, after
DELETING EVERY occurrence of the radix character b (wherever it stands),
is not exactly two characters from the binary digits; in particular the
immediate 3 fails, while b01 succeeds. -/
theorem c4_immediate_validation (labels : List (String × String)) (a : Nat)
    (ops immTok : String)
    (h1 : (pySplitChar ',' ops).get? 1 = some immTok)
    (h2 : (REGISTERS.find?
        (fun p => p.1 == pyStrip ((pySplitChar ',' ops).headD ""))).isSome = true) :
    (∃ msg, encode_one labels (Instr.mk a "LDI" ops) =
        Except.error (EncodeError.malformedImmediate msg)) ↔
      isTwoBitBinary (pyRemoveChar 'b' (pyStrip immTok)) = false := by
  have hiff := encode_reg_imm2_malformed_iff ops immTok h1 h2
  unfold encode_one
  have hf : INSTRUCTION_SET.find?
      (fun p => p.1 == (Instr.mk a "LDI" ops).mnemonic) =
      some ("LDI", "0101", "reg_imm2") := rfl
  rw [hf]
  dsimp only
  cases hx : encode_reg_imm2 ops with
  | error e =>
    have hxx : encode_operand labels "reg_imm2" ops = Except.error e := hx
    rw [hxx]
    rw [hx] at hiff
    exact hiff
  | ok ob =>
    have hxx : encode_operand labels "reg_imm2" ops = Except.ok ob := hx
    rw [hxx]
    rw [hx] at hiff
    constructor
    · rintro ⟨msg, hm⟩
      exact absurd hm (by simp)
    · intro hrhs
      rcases hiff.mpr hrhs with ⟨msg, hm⟩
      exact absurd hm (by simp)

/-- Witness for the amended C4: the immediate 3 of the record LDI with
operand string R0,3 fails with MalformedImmediate. -/
theorem c4_immediate_validation_witness :
    (pySplitChar ',' "R0,3").get? 1 = some "3" ∧
    (∃ msg, encode_one [] (Instr.mk 0 "LDI" "R0,3") =
        Except.error (EncodeError.malformedImmediate msg)) :=
  ⟨by decide,
   (c4_immediate_validation [] 0 "R0,3" "3" (by decide) (by decide)).mpr (by decide)⟩
